import Mathlib

/-!
Verification development for the DocumentTemplateGenerator repository.

We shallowly embed the JavaScript template/document-assembly engine:
`templateHelpers.js` (path resolution, template substitution, condition
evaluation, validation) and `documentGenerator.js` (document assembly from a
structure skeleton, both the binary `docx` path and the HTML preview path),
plus the form-visibility evaluator from `FormRenderer.jsx`.

JavaScript values are modelled by the inductive `JsVal`.  Modelling notes:
* numbers are modelled as integers (`Int`); no claim in scope involves
  non-integer numerics or NaN/Infinity literals.  `ToNumber` on strings is
  modelled for optionally signed decimal integer literals (other strings map
  to "not a number", i.e. `none`).
* strict equality (`===`) on objects, arrays and functions is reference
  equality in JavaScript.  All condition/data values in this program come from
  independently parsed JSON, so two such composite values are never the same
  reference; `jsStrictEq` therefore returns `false` on composites.
* property access through the code's optional chaining (`?.`) yields
  `undefined` on `null`/`undefined` receivers, as in `getField`.  Where the
  source uses a bare member access that would throw on `null`/`undefined`
  (e.g. `structureJson.sections` in the preview renderer), the embedding
  makes the throw explicit in `Except`, or the relevant theorems restrict
  their scope with explicit hypotheses.
* operations that throw `TypeError` in JavaScript (iterating a truthy
  non-array, calling `.map`/`.replace` on a non-array/non-string) are
  modelled as `Except.error`.
-/

namespace DocGen

/-- JavaScript values as produced by JSON parsing, plus an opaque function
value (`documentGenerator.js` injects a `formatDate` closure into the data
record). -/
inductive JsVal where
  | undef : JsVal
  | nullv : JsVal
  | bool (b : Bool) : JsVal
  | num (n : Int) : JsVal
  | str (s : String) : JsVal
  | arr (xs : List JsVal) : JsVal
  | obj (fields : List (String × JsVal)) : JsVal
  | fn : JsVal

/-- JavaScript truthiness.  (`NaN` is absent from the integer model.) -/
def jsTruthy : JsVal → Bool
  | .undef => false
  | .nullv => false
  | .bool b => b
  | .num n => n != 0
  | .str s => s != ""
  | .arr _ => true
  | .obj _ => true
  | .fn => true

/-- `a || b` in JavaScript. -/
def jsOr (a b : JsVal) : JsVal := if jsTruthy a then a else b

/-- First-match association lookup.  Object literals with overriding spreads
(`{...u, k: v}`) are modelled by *prepending* the overriding entries, so
first-match lookup realises JavaScript's "later literal entry wins". -/
def lookupField : List (String × JsVal) → String → JsVal
  | [], _ => .undef
  | (k, v) :: rest, key => if k = key then v else lookupField rest key

/-- Canonical array index: a nonempty digit string without a leading zero
(except `"0"` itself). -/
def parseIndex (key : String) : Option Nat :=
  match key.data with
  | [] => none
  | c :: cs =>
      if (c :: cs).all (·.isDigit) && (c ≠ '0' || cs = []) then
        some ((c :: cs).foldl (fun a ch => a * 10 + (ch.toNat - 48)) 0)
      else none

/-- Property access `v?.[key]` (also used for guarded bare accesses):
`undefined` on `null`/`undefined`/primitive receivers, association lookup on
objects, index/`length` on arrays and strings. -/
def getField (v : JsVal) (key : String) : JsVal :=
  match v with
  | .obj fs => lookupField fs key
  | .arr xs =>
      if key = "length" then .num xs.length
      else match parseIndex key with
        | some i => (xs.get? i).getD .undef
        | none => .undef
  | .str s =>
      if key = "length" then .num s.length
      else match parseIndex key with
        | some i => match s.data.get? i with
          | some ch => .str (String.mk [ch])
          | none => .undef
        | none => .undef
  | _ => (.undef : JsVal)

/-- Split a character list at `'.'`, mirroring JavaScript `path.split('.')`
(keeps empty segments). -/
def splitDot : List Char → List Char → List (List Char)
  | [], acc => [acc.reverse]
  | c :: t, acc => if c = '.' then acc.reverse :: splitDot t [] else splitDot t (c :: acc)

/-- `getNestedValue(obj, path)` from `templateHelpers.js`:
`if (!path) return undefined; return path.split('.').reduce((cur, k) => cur?.[k], obj)`. -/
def getNestedValue (o : JsVal) (path : String) : JsVal :=
  if path = "" then .undef
  else (splitDot path.data []).foldl (fun cur k => getField cur (String.mk k)) o

mutual

/-- JavaScript `String(v)` coercion (default `toString`; functions are opaque
in the model, no claim depends on their string form). -/
def jsToString : JsVal → String
  | .undef => "undefined"
  | .nullv => "null"
  | .bool b => if b then "true" else "false"
  | .num n => toString n
  | .str s => s
  | .arr xs => String.intercalate "," (arrStrings xs)
  | .obj _ => "[object Object]"
  | .fn => "function"

/-- `Array.prototype.join`: `null`/`undefined` elements become empty strings. -/
def arrStrings : List JsVal → List String
  | [] => []
  | .undef :: t => "" :: arrStrings t
  | .nullv :: t => "" :: arrStrings t
  | v :: t => jsToString v :: arrStrings t

end

/-- Parse an optionally signed decimal integer literal (after trimming);
the empty string is `0`.  Models JavaScript `ToNumber` on the integer-literal
fragment of strings; all other strings are "not a number" (`none`). -/
def parseNumChars : List Char → Option Int
  | [] => some 0
  | '-' :: cs => if cs ≠ [] && cs.all (·.isDigit) then
      some (-(cs.foldl (fun a ch => a * 10 + ((ch.toNat : Int) - 48)) 0)) else none
  | '+' :: cs => if cs ≠ [] && cs.all (·.isDigit) then
      some (cs.foldl (fun a ch => a * 10 + ((ch.toNat : Int) - 48)) 0) else none
  | cs => if cs.all (·.isDigit) then
      some (cs.foldl (fun a ch => a * 10 + ((ch.toNat : Int) - 48)) 0) else none

/-- Whitespace for JavaScript `String.prototype.trim` (common subset). -/
def isWs (c : Char) : Bool := c = ' ' || c = '\t' || c = '\n' || c = '\r'

/-- Trim leading and trailing whitespace. -/
def trimChars (l : List Char) : List Char :=
  ((l.dropWhile isWs).reverse.dropWhile isWs).reverse

/-- JavaScript `ToNumber`, with `none` standing for `NaN`. -/
def jsToNum : JsVal → Option Int
  | .undef => none
  | .nullv => some 0
  | .bool b => some (if b then 1 else 0)
  | .num n => some n
  | .str s => parseNumChars (trimChars s.data)
  | .arr xs => parseNumChars (trimChars (jsToString (.arr xs)).data)
  | .obj _ => none
  | .fn => none

/-- JavaScript strict equality `===`.  Composite values (arrays, objects,
functions) compare by reference in JavaScript; in this program they always
come from independently parsed JSON and are never the same reference, so the
model returns `false` for them. -/
def jsStrictEq : JsVal → JsVal → Bool
  | .undef, .undef => true
  | .nullv, .nullv => true
  | .bool a, .bool b => a = b
  | .num a, .num b => a = b
  | .str a, .str b => a = b
  | _, _ => false

/-- JavaScript abstract relational comparison `a < b`: lexicographic when both
operands are strings, otherwise numeric after `ToNumber` (`NaN` ⇒ `false`). -/
def jsLtB : JsVal → JsVal → Bool
  | .str a, .str b => a < b
  | a, b => match jsToNum a, jsToNum b with
      | some x, some y => x < y
      | _, _ => false

/-- JavaScript `a > b` (i.e. `b < a` with the same `NaN` ⇒ `false` rule). -/
def jsGtB (a b : JsVal) : Bool := jsLtB b a

/-- Substring test on character lists (`String.prototype.includes`). -/
def listContains : List Char → List Char → Bool
  | s, sub => if sub.isPrefixOf s then true
      else match s with
        | [] => false
        | _ :: t => listContains t sub

/-- `haystack.includes(needle)` with `ToString` coercion of the needle. -/
def strIncludes (hay : String) (needle : JsVal) : Bool :=
  listContains hay.data (jsToString needle).data

/-- `Array.prototype.includes` (SameValueZero; coincides with `===` in the
integer model). -/
def arrIncludes (xs : List JsVal) (v : JsVal) : Bool :=
  xs.any (fun x => jsStrictEq x v)

/-!
## Template substitution (`renderTemplate` in `templateHelpers.js`)

`template.replace(/{{([^}]+)}}/g, cb)`: scan left to right; a match is
`{{` + a nonempty run of non-`}` characters + `}}`.  Because `[^}]+` cannot
contain `}`, the leftmost match at a position is exactly: the maximal run of
non-`}` characters after `{{`, provided it is nonempty and followed by `}}`.
-/

/-- Longest prefix of non-`}` characters, with the remainder. -/
def scanBody : List Char → List Char × List Char
  | [] => ([], [])
  | c :: t =>
      if c = '}' then ([], c :: t)
      else
        let p := scanBody t
        (c :: p.1, p.2)

theorem scanBody_snd_length (l : List Char) : (scanBody l).2.length ≤ l.length := by
  induction l with
  | nil => simp [scanBody]
  | cons c t ih =>
      by_cases h : c = '}'
      · simp [scanBody, h]
      · simp [scanBody, h]
        omega

theorem scanBody_append (l : List Char) : (scanBody l).1 ++ (scanBody l).2 = l := by
  induction l with
  | nil => simp [scanBody]
  | cons c t ih =>
      by_cases h : c = '}'
      · simp [scanBody, h]
      · simp [scanBody, h, ih]

/-- Try to match the regex at the current position: `{{` followed by a
nonempty `}`-free body followed by `}}` (since `[^}]+` cannot contain `}`,
the only candidate body is the maximal non-`}` run).  On success, return the
body and the input after the match. -/
def scanStep : List Char → Option (List Char × List Char)
  | '{' :: '{' :: rest2 =>
      match scanBody rest2 with
      | (b :: bs, '}' :: '}' :: tail2) => some (b :: bs, tail2)
      | _ => none
  | _ => none

/-- The global-regex replacement scan, structurally recursive on a fuel
counter (each step consumes at least one character, so fuel = input length
suffices and the `0` clause is unreachable from `renderChars`): at each
position, replace a match and resume after it, or emit one character and
advance one position. -/
def renderCharsF (repl : List Char → List Char) : Nat → List Char → List Char
  | 0, l => l
  | _ + 1, [] => []
  | fuel + 1, c :: rest =>
      match scanStep (c :: rest) with
      | some (body, tail2) => repl body ++ renderCharsF repl fuel tail2
      | none => c :: renderCharsF repl fuel rest

/-- The replacement scan over a whole character list. -/
def renderChars (repl : List Char → List Char) (l : List Char) : List Char :=
  renderCharsF repl l.length l

/-- The placeholder bodies that the scan would pass to the callback, in
order (same traversal as `renderCharsF`). -/
def placeholderBodiesF : Nat → List Char → List (List Char)
  | 0, _ => []
  | _ + 1, [] => []
  | fuel + 1, c :: rest =>
      match scanStep (c :: rest) with
      | some (body, tail2) => body :: placeholderBodiesF fuel tail2
      | none => placeholderBodiesF fuel rest

/-- The placeholder bodies of a template string. -/
def placeholderBodies (s : String) : List (List Char) :=
  placeholderBodiesF s.data.length s.data

theorem scanStep_some {l body tail2 : List Char}
    (h : scanStep l = some (body, tail2)) :
    l = '{' :: '{' :: (body ++ '}' :: '}' :: tail2) := by
  match l with
  | [] => exact absurd h (by simp [scanStep])
  | [c] =>
      exact absurd h (by simp [scanStep])
  | c1 :: c2 :: rest2 =>
      by_cases h1 : c1 = '{'
      · by_cases h2 : c2 = '{'
        · subst h1; subst h2
          have ha := scanBody_append rest2
          revert h
          match hsb : scanBody rest2 with
          | ([], _) => simp [scanStep, hsb]
          | (b :: bs, []) => simp [scanStep, hsb]
          | (b :: bs, [c]) =>
              by_cases hc : c = '}'
              · subst hc; simp [scanStep, hsb]
              · simp [scanStep, hsb, hc]
          | (b :: bs, d1 :: d2 :: t2) =>
              by_cases hd1 : d1 = '}'
              · by_cases hd2 : d2 = '}'
                · subst hd1; subst hd2
                  intro h
                  simp only [scanStep, hsb] at h
                  obtain ⟨hb, ht⟩ := Prod.mk.injEq .. ▸ (Option.some.injEq .. ▸ h)
                  rw [hsb] at ha
                  simp only [← hb, ← ht]
                  simpa using ha.symm
                · subst hd1; simp [scanStep, hsb, hd2]
              · simp [scanStep, hsb, hd1]
        · simp [scanStep, h2] at h
      · simp [scanStep, h1] at h

/-- The replacement callback of `renderTemplate`: trim the placeholder body;
`boilerplate.`-prefixed paths resolve against the boilerplate mapping with the
prefix stripped, everything else against the data record; an `undefined`
resolution keeps the original matched text (braces included); a defined value
is coerced with `String(...)` as `String.prototype.replace` does. -/
def templateRepl (data boilerplate : JsVal) (body : List Char) : List Char :=
  let trimmed := trimChars body
  if ("boilerplate.".data).isPrefixOf trimmed then
    match getNestedValue boilerplate (String.mk (trimmed.drop 12)) with
    | .undef => '{' :: '{' :: (body ++ ['}', '}'])
    | v => (jsToString v).data
  else
    match getNestedValue data (String.mk trimmed) with
    | .undef => '{' :: '{' :: (body ++ ['}', '}'])
    | v => (jsToString v).data

/-- The `boilerplate = {}` default parameter (applies exactly on
`undefined`). -/
def bpDefault : JsVal → JsVal
  | .undef => .obj []
  | b => b

/-- `renderTemplate(template, data, boilerplate = {})` from
`templateHelpers.js`.  Falsy or non-string templates are returned unchanged. -/
def renderTemplate (template data boilerplate : JsVal) : JsVal :=
  match template with
  | .str s =>
      if s = "" then .str s
      else .str (String.mk (renderChars (templateRepl data (bpDefault boilerplate)) s.data))
  | t => t

/-- The path of a placeholder body resolves to `undefined` (against the
boilerplate mapping for `boilerplate.`-prefixed paths, against the data
record otherwise). -/
def resolvesUndef (data bp : JsVal) (b : List Char) : Prop :=
  if ("boilerplate.".data).isPrefixOf (trimChars b)
  then getNestedValue bp (String.mk ((trimChars b).drop 12)) = .undef
  else getNestedValue data (String.mk (trimChars b)) = .undef

theorem templateRepl_verbatim {data bp : JsVal} {b : List Char}
    (h : resolvesUndef data bp b) :
    templateRepl data bp b = '{' :: '{' :: (b ++ ['}', '}']) := by
  unfold resolvesUndef at h
  unfold templateRepl
  by_cases hp : ("boilerplate.".data).isPrefixOf (trimChars b)
  · rw [if_pos hp] at h
    simp only [hp, if_true]
    rw [h]
  · rw [if_neg hp] at h
    simp only [hp]
    rw [h]
    simp

/-- If every placeholder body the scan encounters is replaced by its own
verbatim match text, the scan is the identity. -/
theorem renderCharsF_preserve (repl : List Char → List Char) :
    ∀ (fuel : Nat) (l : List Char),
      (∀ b ∈ placeholderBodiesF fuel l, repl b = '{' :: '{' :: (b ++ ['}', '}'])) →
      renderCharsF repl fuel l = l := by
  intro fuel
  induction fuel with
  | zero => intro l _; rfl
  | succ f ih =>
      intro l H
      match l with
      | [] => rfl
      | c :: rest =>
          match hstep : scanStep (c :: rest) with
          | none =>
              have hr : renderCharsF repl (f + 1) (c :: rest)
                  = c :: renderCharsF repl f rest := by
                simp [renderCharsF, hstep]
              have hp : placeholderBodiesF (f + 1) (c :: rest)
                  = placeholderBodiesF f rest := by
                simp [placeholderBodiesF, hstep]
              rw [hr, ih rest (hp ▸ H)]
          | some (body, tail2) =>
              have hl := scanStep_some hstep
              have hr : renderCharsF repl (f + 1) (c :: rest)
                  = repl body ++ renderCharsF repl f tail2 := by
                simp [renderCharsF, hstep]
              have hp : placeholderBodiesF (f + 1) (c :: rest)
                  = body :: placeholderBodiesF f tail2 := by
                simp [placeholderBodiesF, hstep]
              have hbody := H body (by rw [hp]; exact List.mem_cons_self _ _)
              have htail : ∀ b ∈ placeholderBodiesF f tail2,
                  repl b = '{' :: '{' :: (b ++ ['}', '}']) := by
                intro b hb
                exact H b (by rw [hp]; exact List.mem_cons_of_mem _ hb)
              rw [hr, hbody, ih tail2 htail, hl]
              simp

/-!
## Condition evaluation

`evaluateCondition` in `templateHelpers.js` (server side, used by document
assembly) and `evaluateConditional` in `FormRenderer.jsx` (client side form
visibility).
-/

/-- The operator switch of `evaluateCondition` (`switch` compares the
operator against the case labels with `===`). -/
def condSwitch (operator fieldValue value : JsVal) : Bool :=
  match operator with
  | .str "equals" => jsStrictEq fieldValue value
  | .str "not_equals" => !jsStrictEq fieldValue value
  | .str "greater_than" => jsGtB fieldValue value
  | .str "less_than" => jsLtB fieldValue value
  | .str "contains" =>
      match fieldValue with
      | .arr xs => arrIncludes xs value
      | fv => strIncludes (jsToString fv) value
  | .str "not_contains" =>
      match fieldValue with
      | .arr xs => !arrIncludes xs value
      | fv => !strIncludes (jsToString fv) value
  | _ => true

/-- `evaluateCondition(condition, data)`: `true` when the condition or its
`field` is falsy; otherwise the operator switch on
`getNestedValue(data, field)`.  A truthy non-string `field` would make
`field.split('.')` throw a `TypeError`, modelled as `none`. -/
def evaluateCondition (condition data : JsVal) : Option Bool :=
  if !jsTruthy condition || !jsTruthy (getField condition "field") then some true
  else
    match getField condition "field" with
    | .str f =>
        some (condSwitch (getField condition "operator")
          (getNestedValue data f) (getField condition "value"))
    | _ => none

/-- `evaluateConditional(conditional)` from `FormRenderer.jsx`, with the
watched form data passed explicitly.  The field value is the *direct*
property `formData[field]` (the key coerced with `ToString`, no dotted-path
resolution), and only `equals`, `not_equals` and `contains` are implemented;
`contains` stringifies falsy field values as `''`. -/
def evaluateConditional (conditional formData : JsVal) : Bool :=
  if !jsTruthy conditional || !jsTruthy (getField conditional "show_when") then true
  else
    let sw := getField conditional "show_when"
    let fieldValue := getField formData (jsToString (getField sw "field"))
    let value := getField sw "value"
    match getField sw "operator" with
    | .str "equals" => jsStrictEq fieldValue value
    | .str "not_equals" => !jsStrictEq fieldValue value
    | .str "contains" =>
        match fieldValue with
        | .arr xs => arrIncludes xs value
        | fv => strIncludes (jsToString (jsOr fv (.str ""))) value
    | _ => true

/-!
## `validateUserData(data, schema)` (validation utilities file)

Modelled as the `errors` array of its result (`valid` is `errors.isEmpty`).
`forEach` on a truthy non-array is a thrown `TypeError` (`Except.error`).
-/

/-- `` `Field "${field.label}" is required` ``. -/
def requiredMsg (label : JsVal) : String :=
  "Field \"" ++ jsToString label ++ "\" is required"

/-- `` `Field "${field.label}" must be a number` ``. -/
def numberMsg (label : JsVal) : String :=
  "Field \"" ++ jsToString label ++ "\" must be a number"

/-- `` `Field "${field.label}" must be at least ${min}` ``. -/
def atLeastMsg (label bound : JsVal) : String :=
  "Field \"" ++ jsToString label ++ "\" must be at least " ++ jsToString bound

/-- `` `Field "${field.label}" must be at most ${max}` ``. -/
def atMostMsg (label bound : JsVal) : String :=
  "Field \"" ++ jsToString label ++ "\" must be at most " ++ jsToString bound

/-- `` `Field "${field.label}" must be text` ``. -/
def textMsg (label : JsVal) : String :=
  "Field \"" ++ jsToString label ++ "\" must be text"

/-- `` `Field "${label}" must be at least ${n} characters` ``. -/
def minLengthMsg (label bound : JsVal) : String :=
  "Field \"" ++ jsToString label ++ "\" must be at least " ++ jsToString bound ++ " characters"

/-- `` `Field "${label}" must be at most ${n} characters` ``. -/
def maxLengthMsg (label bound : JsVal) : String :=
  "Field \"" ++ jsToString label ++ "\" must be at most " ++ jsToString bound ++ " characters"

/-- `` `Field "${field.label}" must be a table (array)` ``. -/
def tableMsg (label : JsVal) : String :=
  "Field \"" ++ jsToString label ++ "\" must be a table (array)"

/-- The type-specific `switch (field.type)` of `validateUserData`, entered
only when `data[field.id] !== undefined`.  The `.length` accesses in the
text branch are guarded by truthiness of `validation?.minLength` /
`validation?.maxLength` and are modelled with `getField`. -/
def fieldTypeErrors (dv field : JsVal) : List String :=
  let label := getField field "label"
  let validation := getField field "validation"
  match getField field "type" with
  | .str "number" =>
      (if (jsToNum dv).isNone then [numberMsg label] else []) ++
      (let minv := getField validation "min"
       match minv with
       | .undef => []
       | _ => if jsLtB dv minv then [atLeastMsg label minv] else []) ++
      (let maxv := getField validation "max"
       match maxv with
       | .undef => []
       | _ => if jsGtB dv maxv then [atMostMsg label maxv] else [])
  | .str "text" =>
      (match dv with | .str _ => [] | _ => [textMsg label]) ++
      (let minl := getField validation "minLength"
       if jsTruthy minl && jsLtB (getField dv "length") minl
       then [minLengthMsg label minl] else []) ++
      (let maxl := getField validation "maxLength"
       if jsTruthy maxl && jsGtB (getField dv "length") maxl
       then [maxLengthMsg label maxl] else [])
  | .str "textarea" =>
      (match dv with | .str _ => [] | _ => [textMsg label]) ++
      (let minl := getField validation "minLength"
       if jsTruthy minl && jsLtB (getField dv "length") minl
       then [minLengthMsg label minl] else []) ++
      (let maxl := getField validation "maxLength"
       if jsTruthy maxl && jsGtB (getField dv "length") maxl
       then [maxLengthMsg label maxl] else [])
  | .str "table" =>
      match dv with | .arr _ => [] | _ => [tableMsg label]
  | _ => []

/-- Errors contributed by one field: the required check
(`field.required && !data[field.id]`), then the type-specific checks. -/
def fieldErrors (data field : JsVal) : List String :=
  let dv := getField data (jsToString (getField field "id"))
  (if jsTruthy (getField field "required") && !jsTruthy dv
   then [requiredMsg (getField field "label")] else []) ++
  (match dv with
   | .undef => []
   | _ => fieldTypeErrors dv field)

/-- `section.fields?.forEach(field => ...)`. -/
def sectionFieldErrors (data sec : JsVal) : Except String (List String) :=
  match getField sec "fields" with
  | .undef => .ok []
  | .nullv => .ok []
  | .arr fs => .ok (fs.map (fieldErrors data)).flatten
  | _ => .error "TypeError: fields.forEach is not a function"

/-- Fold the per-section errors. -/
def sectionsErrors (data : JsVal) : List JsVal → Except String (List String)
  | [] => .ok []
  | sec :: rest =>
      match sectionFieldErrors data sec with
      | .error e => .error e
      | .ok es =>
          match sectionsErrors data rest with
          | .error e => .error e
          | .ok es2 => .ok (es ++ es2)

/-- `validateUserData(data, schema)`: returns the error list (the source's
`{valid, errors}` with `valid = errors.length === 0`).  Without a truthy
schema/`schema.sections` it validates nothing. -/
def validateUserData (data schema : JsVal) : Except String (List String) :=
  if !jsTruthy schema || !jsTruthy (getField schema "sections") then .ok []
  else
    match getField schema "sections" with
    | .arr secs => sectionsErrors data secs
    | _ => .error "TypeError: sections.forEach is not a function"

/-!
## Document assembly (`documentGenerator.js`)

`generateFromStructure` (the binary `docx` path) and `generateHtmlPreview`
(the HTML preview path).  Each path is modelled as producing its list of
document sections, a section being a list of elements; the `docx`/HTML
serialisation wrappers around those elements carry no further content.
Recursion through nested `conditional` items is structural on a fuel counter
(fuel consumption is per processed item, so any fuel at least the total item
count of the structure is enough; exhaustion is an `Except.error`, so `ok`
results are fuel-independent facts).
-/

/-- An element emitted by the binary renderer: a heading paragraph
(`HeadingLevel[HEADING_${level || 1}]`), a body paragraph, or a table given
by its rows of cell texts (header row included, coerced by `String(...)` as
in the source). -/
inductive BinElem where
  | heading (level : JsVal) (text : JsVal)
  | para (text : JsVal)
  | table (rows : List (List String))

/-- An element emitted by the HTML preview renderer: `<h{level || 1}>`,
`<p>`, or `<table>` with optional `<thead>` cells and `<tbody>` rows (cell
texts HTML-escaped as in the source). -/
inductive HtmlElem where
  | hdg (level : JsVal) (text : String)
  | par (text : String)
  | tab (headers : Option (List String)) (body : List (List String))

/-- `escapeHtml(text)` from `documentGenerator.js` (includes the
`String(text)` coercion). -/
def escapeChar (c : Char) : List Char :=
  if c = '&' then "&amp;".data
  else if c = '<' then "&lt;".data
  else if c = '>' then "&gt;".data
  else if c = '"' then "&quot;".data
  else if c = '\'' then "&#039;".data
  else [c]

/-- HTML-escape a value after `String(...)` coercion. -/
def escapeHtml (v : JsVal) : String :=
  String.mk ((jsToString v).data.map escapeChar).flatten

/-- `item.loop.replace(/[{}#\/]/g, '').trim()`. -/
def cleanLoopPath (s : String) : String :=
  String.mk (trimChars (s.data.filter (fun c => !(c = '{' || c = '}' || c = '#' || c = '/'))))

/-- `item.source.replace(/[{}]/g, '').trim()`. -/
def cleanSourcePath (s : String) : String :=
  String.mk (trimChars (s.data.filter (fun c => !(c = '{' || c = '}'))))

/-- `v?.length` (optional chaining, as in `item.headers?.length`). -/
def optLength (v : JsVal) : JsVal :=
  match v with
  | .undef => .undef
  | .nullv => .undef
  | x => getField x "length"

/-- Coerce a JavaScript numeric bound to a row/column count (`NaN` ⇒ the
`for` loop never runs). -/
def toCount (v : JsVal) : Nat :=
  match jsToNum v with
  | some n => n.toNat
  | none => 0

/-- The header row of `createTable`: `if (item.headers)` then a row of
`String(header)` cells; `.map` on a truthy non-array throws. -/
def headerRowsB (item : JsVal) : Except String (List (List String)) :=
  match getField item "headers" with
  | .arr hs => .ok [hs.map jsToString]
  | h => if jsTruthy h then .error "TypeError: item.headers.map is not a function" else .ok []

/-- The row-producing branch chain of `createTable`: the first matching mode
of loop / boilerplate source / inline static rows / empty rows. -/
def tableBranchRowsB (item userData contentJson : JsVal) :
    Except String (List (List String)) :=
  let blocks := getField contentJson "blocks"
  if jsTruthy (getField item "loop") then
          match getField item "loop" with
          | .str L =>
              match getNestedValue userData (cleanLoopPath L) with
              | .arr xs =>
                  if xs.length > 0 then
                    match getField item "rows" with
                    | .arr tpls =>
                        .ok (xs.map (fun el =>
                          tpls.map (fun tpl => jsToString (renderTemplate tpl el blocks))))
                    | rv =>
                        if jsTruthy rv then .error "TypeError: item.rows.map is not a function"
                        else .ok (xs.map (fun _ => []))
                  else .ok []
              | _ => .ok []
          | _ => .error "TypeError: item.loop.replace is not a function"
        else if jsTruthy (getField item "source") then
          match getField item "source" with
          | .str S =>
              let tableData := getNestedValue contentJson (cleanSourcePath S)
              if jsTruthy tableData && jsTruthy (getField tableData "defaultRows") then
                match getField tableData "defaultRows" with
                | .arr rws =>
                    rws.mapM (fun rowData =>
                      match rowData with
                      | .arr cs => .ok (cs.map jsToString)
                      | _ => .error "TypeError: rowData.map is not a function")
                | _ => .error "TypeError: defaultRows is not iterable"
              else .ok []
          | _ => .error "TypeError: item.source.replace is not a function"
        else if jsTruthy (getField item "rows") then
          match getField item "rows" with
          | .arr defs =>
              defs.mapM (fun rowDef =>
                match rowDef with
                | .arr cellDefs =>
                    .ok (cellDefs.map (fun cellDef =>
                      jsToString (renderTemplate
                        (jsOr (jsOr (getField cellDef "template") (getField cellDef "text")) (.str ""))
                        userData blocks)))
                | _ => .error "TypeError: rowDef.map is not a function")
          | _ => .error "TypeError: item.rows is not iterable"
        else if jsTruthy (getField item "emptyRows") then
          let colCount := toCount (jsOr (optLength (getField item "headers")) (.num 3))
          .ok (List.replicate (toCount (getField item "emptyRows"))
                (List.replicate colCount ""))
        else .ok []

/-- `createTable(item, userData, contentJson)`: header row, then the first
matching row mode; `null` (here `none`) when no rows at all were produced. -/
def createTable (item userData contentJson : JsVal) : Except String (Option BinElem) :=
  match headerRowsB item with
  | .error e => .error e
  | .ok hrows =>
      match tableBranchRowsB item userData contentJson with
      | .error e => .error e
      | .ok brows =>
          let rows := hrows ++ brows
          .ok (if rows.isEmpty then none else some (.table rows))

/-- One step of `processContentItem` (the `switch (item.type)`), with the
nested-content recursion of the `conditional` case abstracted as `recur`. -/
def procItemStepB (recur : List JsVal → Except String (List BinElem))
    (item userData contentJson : JsVal) : Except String (List BinElem) :=
  match getField item "type" with
  | .str "paragraph" =>
      .ok [.para (renderTemplate
        (jsOr (jsOr (getField item "template") (getField item "text")) (.str ""))
        userData (getField contentJson "blocks"))]
  | .str "table" =>
      match createTable item userData contentJson with
      | .error e => .error e
      | .ok none => .ok []
      | .ok (some t) => .ok [t]
  | .str "conditional" =>
      match evaluateCondition (getField item "condition") userData with
      | none => .error "TypeError: condition field is not a string path"
      | some false => .ok []
      | some true =>
          match jsOr (getField item "content") (.arr []) with
          | .arr subs => recur subs
          | _ => .error "TypeError: item.content is not iterable"
  | _ => .ok []

/-- `processContentItem`, lifted to item lists (the nested-content loop of
the `conditional` case processes its sub-items with no per-item condition
check).  Structural on fuel; one unit per item, so any fuel at least the
total item count of the structure suffices. -/
def procItemsB : Nat → List JsVal → JsVal → JsVal → Except String (List BinElem)
  | _, [], _, _ => .ok []
  | 0, _ :: _, _, _ => .error "fuel exhausted"
  | fuel + 1, item :: rest, userData, contentJson =>
      match procItemStepB (fun subs => procItemsB fuel subs userData contentJson)
          item userData contentJson with
      | .error e => .error e
      | .ok es =>
          match procItemsB fuel rest userData contentJson with
          | .error e => .error e
          | .ok es2 => .ok (es ++ es2)

/-- The per-item condition skip of both section-content loops
(`if (item.condition && !evaluateCondition(item.condition, data)) continue`):
`ok true` means "skip this item". -/
def condSkip (item userData : JsVal) : Except String Bool :=
  let cond := getField item "condition"
  if jsTruthy cond then
    match evaluateCondition cond userData with
    | none => .error "TypeError: condition field is not a string path"
    | some b => .ok (!b)
  else .ok false

/-- The section-content loop of `generateFromStructure`: items whose truthy
`condition` evaluates false are skipped
(`if (item.condition && !evaluateCondition(item.condition, data)) continue`). -/
def sectionItemsB : Nat → List JsVal → JsVal → JsVal → Except String (List BinElem)
  | _, [], _, _ => .ok []
  | 0, _ :: _, _, _ => .error "fuel exhausted"
  | fuel + 1, item :: rest, userData, contentJson =>
      match condSkip item userData with
      | .error e => .error e
      | .ok true => sectionItemsB fuel rest userData contentJson
      | .ok false =>
          match procItemStepB (fun subs => procItemsB fuel subs userData contentJson)
              item userData contentJson with
          | .error e => .error e
          | .ok es =>
              match sectionItemsB fuel rest userData contentJson with
              | .error e => .error e
              | .ok es2 => .ok (es ++ es2)

/-- One structure section on the binary path: the heading paragraph when
`section.heading` is truthy, then the section content. -/
def buildSectionB (fuel : Nat) (sec userData contentJson : JsVal) :
    Except String (List BinElem) :=
  let headElems : List BinElem :=
    if jsTruthy (getField sec "heading") then
      let h := getField sec "heading"
      [.heading (jsOr (getField h "level") (.num 1))
        (renderTemplate (getField h "text") userData (getField contentJson "blocks"))]
    else []
  let contentv := getField sec "content"
  if jsTruthy contentv then
    match contentv with
    | .arr items =>
        match sectionItemsB fuel items userData contentJson with
        | .error e => .error e
        | .ok es => .ok (headElems ++ es)
    | _ => .error "TypeError: section.content is not iterable"
  else .ok headElems

/-- The section loop of `generateFromStructure`: sections whose `type` is
(strictly) `'header'` or `'footer'` are skipped. -/
def buildSectionsB (fuel : Nat) : List JsVal → JsVal → JsVal →
    Except String (List (List BinElem))
  | [], _, _ => .ok []
  | sec :: rest, userData, contentJson =>
      if jsStrictEq (getField sec "type") (.str "header")
          || jsStrictEq (getField sec "type") (.str "footer") then
        buildSectionsB fuel rest userData contentJson
      else
        match buildSectionB fuel sec userData contentJson with
        | .error e => .error e
        | .ok children =>
            match buildSectionsB fuel rest userData contentJson with
            | .error e => .error e
            | .ok out => .ok (children :: out)

/-- The fields contributed by an object spread `{...v}` (arrays and strings
spread their indices; other primitives contribute nothing). -/
def spreadFields : JsVal → List (String × JsVal)
  | .obj fs => fs
  | .arr xs => xs.enum.map (fun p => (toString p.1, p.2))
  | .str s => s.data.enum.map (fun p => (toString p.1, .str (String.mk [p.2])))
  | _ => []

/-- `{...userData, today: getToday(), formatDate: (d) => ...}`.  The wall
clock enters the engine only here, so the model takes `today` as an explicit
parameter.  Overriding literal entries are prepended (first-match lookup). -/
def enhance (userData : JsVal) (today : String) : JsVal :=
  .obj (("formatDate", .fn) :: ("today", .str today) :: spreadFields userData)

/-- `generateFromStructure(structureJson, userData, contentJson)`: hard
failure without a truthy `structureJson.sections`; otherwise the section
loop over the enhanced user data, with the `'Empty document'` fallback when
every section was skipped. -/
def generateFromStructure (fuel : Nat) (structureJson userData contentJson : JsVal)
    (today : String) : Except String (List (List BinElem)) :=
  if !jsTruthy structureJson || !jsTruthy (getField structureJson "sections") then
    .error "Invalid structure JSON"
  else
    match getField structureJson "sections" with
    | .arr secs =>
        match buildSectionsB fuel secs (enhance userData today) contentJson with
        | .error e => .error e
        | .ok docSections =>
            .ok (if docSections.isEmpty then [[.para (.str "Empty document")]] else docSections)
    | _ => .error "TypeError: sections is not iterable"

/-!
### HTML preview (`generateHtmlPreview` / `renderHtmlContentItem`)

Note the asymmetries present in the source: the preview is rendered against
the *raw* user data passed to it (no `today`/`formatDate` injection), its
table case handles only the loop and empty-rows modes (a `<table>` is still
emitted for every table item), and the whole body is wrapped in a `try`
returning `'<p>Preview generation failed</p>'` on any throw.
-/

/-- The `<thead>` of the preview table: present iff `item.headers` is truthy;
`forEach` on a truthy non-array throws. -/
def headerCellsH (item : JsVal) : Except String (Option (List String)) :=
  match getField item "headers" with
  | .arr hs => .ok (some (hs.map escapeHtml))
  | h => if jsTruthy h then .error "TypeError: item.headers.forEach is not a function"
         else .ok none

/-- The `<tbody>` rows of the preview table: loop mode (no `length > 0`
guard) or empty-rows mode; all other modes yield an empty body. -/
def tableBodyH (item userData contentJson : JsVal) : Except String (List (List String)) :=
  if jsTruthy (getField item "loop") then
    match getField item "loop" with
    | .str L =>
        match getNestedValue userData (cleanLoopPath L) with
        | .arr xs =>
            match getField item "rows" with
            | .arr tpls =>
                .ok (xs.map (fun el =>
                  tpls.map (fun tpl =>
                    escapeHtml (renderTemplate tpl el (getField contentJson "blocks")))))
            | rv =>
                if jsTruthy rv then
                  if xs.isEmpty then .ok []
                  else .error "TypeError: item.rows.forEach is not a function"
                else .ok (xs.map (fun _ => []))
        | _ => .ok []
    | _ => .error "TypeError: item.loop.replace is not a function"
  else if jsTruthy (getField item "emptyRows") then
    let colCount := toCount (jsOr (optLength (getField item "headers")) (.num 3))
    .ok (List.replicate (toCount (getField item "emptyRows"))
          (List.replicate colCount "&nbsp;"))
  else .ok []

/-- One step of `renderHtmlContentItem` (same `switch` shape as the binary
path). -/
def procItemStepH (recur : List JsVal → Except String (List HtmlElem))
    (item userData contentJson : JsVal) : Except String (List HtmlElem) :=
  match getField item "type" with
  | .str "paragraph" =>
      .ok [.par (escapeHtml (renderTemplate
        (jsOr (jsOr (getField item "template") (getField item "text")) (.str ""))
        userData (getField contentJson "blocks")))]
  | .str "table" =>
      match headerCellsH item with
      | .error e => .error e
      | .ok hdr =>
          match tableBodyH item userData contentJson with
          | .error e => .error e
          | .ok body => .ok [.tab hdr body]
  | .str "conditional" =>
      match evaluateCondition (getField item "condition") userData with
      | none => .error "TypeError: condition field is not a string path"
      | some false => .ok []
      | some true =>
          match jsOr (getField item "content") (.arr []) with
          | .arr subs => recur subs
          | _ => .error "TypeError: item.content is not iterable"
  | _ => .ok []

/-- `renderHtmlContentItem`, lifted to item lists as on the binary path. -/
def procItemsH : Nat → List JsVal → JsVal → JsVal → Except String (List HtmlElem)
  | _, [], _, _ => .ok []
  | 0, _ :: _, _, _ => .error "fuel exhausted"
  | fuel + 1, item :: rest, userData, contentJson =>
      match procItemStepH (fun subs => procItemsH fuel subs userData contentJson)
          item userData contentJson with
      | .error e => .error e
      | .ok es =>
          match procItemsH fuel rest userData contentJson with
          | .error e => .error e
          | .ok es2 => .ok (es ++ es2)

/-- The section-content loop of `generateHtmlPreview` (same condition-skip
as on the binary path). -/
def sectionItemsH : Nat → List JsVal → JsVal → JsVal → Except String (List HtmlElem)
  | _, [], _, _ => .ok []
  | 0, _ :: _, _, _ => .error "fuel exhausted"
  | fuel + 1, item :: rest, userData, contentJson =>
      match condSkip item userData with
      | .error e => .error e
      | .ok true => sectionItemsH fuel rest userData contentJson
      | .ok false =>
          match procItemStepH (fun subs => procItemsH fuel subs userData contentJson)
              item userData contentJson with
          | .error e => .error e
          | .ok es =>
              match sectionItemsH fuel rest userData contentJson with
              | .error e => .error e
              | .ok es2 => .ok (es ++ es2)

/-- One `<section>` of the preview. -/
def buildSectionH (fuel : Nat) (sec userData contentJson : JsVal) :
    Except String (List HtmlElem) :=
  let headElems : List HtmlElem :=
    if jsTruthy (getField sec "heading") then
      let h := getField sec "heading"
      [.hdg (jsOr (getField h "level") (.num 1))
        (escapeHtml (renderTemplate (getField h "text") userData (getField contentJson "blocks")))]
    else []
  let contentv := getField sec "content"
  if jsTruthy contentv then
    match contentv with
    | .arr items =>
        match sectionItemsH fuel items userData contentJson with
        | .error e => .error e
        | .ok es => .ok (headElems ++ es)
    | _ => .error "TypeError: section.content is not iterable"
  else .ok headElems

/-- The section loop of the preview (same `'header'`/`'footer'` skip). -/
def buildSectionsH (fuel : Nat) : List JsVal → JsVal → JsVal →
    Except String (List (List HtmlElem))
  | [], _, _ => .ok []
  | sec :: rest, userData, contentJson =>
      if jsStrictEq (getField sec "type") (.str "header")
          || jsStrictEq (getField sec "type") (.str "footer") then
        buildSectionsH fuel rest userData contentJson
      else
        match buildSectionH fuel sec userData contentJson with
        | .error e => .error e
        | .ok children =>
            match buildSectionsH fuel rest userData contentJson with
            | .error e => .error e
            | .ok out => .ok (children :: out)

/-- The preview body inside the `try`: `structureJson.sections || []` (a bare
member access, so a `null`/`undefined` structure throws). -/
def htmlBody (fuel : Nat) (structureJson userData contentJson : JsVal) :
    Except String (List (List HtmlElem)) :=
  match structureJson with
  | .undef => .error "TypeError: cannot read sections of undefined"
  | .nullv => .error "TypeError: cannot read sections of null"
  | s =>
      match jsOr (getField s "sections") (.arr []) with
      | .arr secs => buildSectionsH fuel secs userData contentJson
      | _ => .error "TypeError: sections is not iterable"

/-- Result of `generateHtmlPreview`: either the preview sections or the
`catch` fallback string `'<p>Preview generation failed</p>'`. -/
inductive HtmlResult where
  | preview (secs : List (List HtmlElem))
  | failed

/-- `generateHtmlPreview(structureJson, userData, contentJson)`. -/
def generateHtmlPreview (fuel : Nat) (structureJson userData contentJson : JsVal) :
    HtmlResult :=
  match htmlBody fuel structureJson userData contentJson with
  | .ok secs => .preview secs
  | .error _ => .failed

/-!
## Claim theorems
-/

theorem scanBody_nonbrace (body rest : List Char) (h : ∀ c ∈ body, c ≠ '}') :
    scanBody (body ++ '}' :: rest) = (body, '}' :: rest) := by
  induction body with
  | nil => simp [scanBody]
  | cons c t ih =>
      have hc : c ≠ '}' := h c (List.mem_cons_self _ _)
      have ht : ∀ x ∈ t, x ≠ '}' := fun x hx => h x (List.mem_cons_of_mem _ hx)
      simp [scanBody, hc, ih ht]

/-- Rendering a single well-formed placeholder `{{path}}` is exactly one
callback invocation on `path`. -/
theorem renderTemplate_single (path : String) (data bp : JsVal)
    (hne : path.data ≠ []) (hnb : ∀ c ∈ path.data, c ≠ '}') :
    renderTemplate (.str ("\x7b\x7b" ++ path ++ "\x7d\x7d")) data bp
      = .str (String.mk (templateRepl data (bpDefault bp) path.data)) := by
  have hdata : ("\x7b\x7b" ++ path ++ "\x7d\x7d").data
      = '{' :: '{' :: (path.data ++ '}' :: '}' :: []) := by
    simp [String.data_append]
  have hstep : scanStep ('{' :: '{' :: (path.data ++ '}' :: '}' :: []))
      = some (path.data, []) := by
    match hp : path.data with
    | [] => exact absurd hp hne
    | p :: ps =>
        rw [hp] at hnb
        have hsb : scanBody (p :: (ps ++ ['}', '}'])) = (p :: ps, ['}', '}']) := by
          simpa using scanBody_nonbrace (p :: ps) ('}' :: []) hnb
        simp [scanStep, hsb]
  have hne2 : ("\x7b\x7b" ++ path ++ "\x7d\x7d" : String) ≠ "" := by
    intro hcon
    have : ("\x7b\x7b" ++ path ++ "\x7d\x7d").data = ([] : List Char) := by rw [hcon]
    rw [hdata] at this
    exact absurd this (by simp)
  rw [show renderTemplate (.str ("\x7b\x7b" ++ path ++ "\x7d\x7d")) data bp
      = if ("\x7b\x7b" ++ path ++ "\x7d\x7d" : String) = "" then .str ("\x7b\x7b" ++ path ++ "\x7d\x7d")
        else .str (String.mk (renderChars (templateRepl data (bpDefault bp))
          ("\x7b\x7b" ++ path ++ "\x7d\x7d").data))
    from rfl]
  rw [if_neg hne2]
  unfold renderChars
  rw [hdata]
  have hlen : ('{' :: '{' :: (path.data ++ '}' :: '}' :: [])).length
      = path.data.length + 3 + 1 := by
    simp
  rw [hlen]
  rw [show renderCharsF (templateRepl data (bpDefault bp)) (path.data.length + 3 + 1)
        ('{' :: '{' :: (path.data ++ '}' :: '}' :: []))
      = match scanStep ('{' :: '{' :: (path.data ++ '}' :: '}' :: [])) with
        | some (body, tail2) =>
            templateRepl data (bpDefault bp) body
              ++ renderCharsF (templateRepl data (bpDefault bp)) (path.data.length + 3) tail2
        | none =>
            '{' :: renderCharsF (templateRepl data (bpDefault bp)) (path.data.length + 3)
              ('{' :: (path.data ++ '}' :: '}' :: []))
      from rfl]
  rw [hstep]
  have hnil : ∀ m : Nat, renderCharsF (templateRepl data (bpDefault bp)) (m + 3) [] = [] :=
    fun _ => rfl
  simp [hnil]

/-- C3: every `{{path}}` placeholder whose path resolves to `undefined` is
left verbatim (braces included) by `renderTemplate`; in particular, when all
placeholder paths of a template are unresolvable, the template is returned
completely unchanged — never blanked and never an exception. -/
theorem C3_unresolved_placeholders_preserved (s : String) (data boilerplate : JsVal)
    (H : ∀ b ∈ placeholderBodies s, resolvesUndef data (bpDefault boilerplate) b) :
    renderTemplate (.str s) data boilerplate = .str s := by
  unfold renderTemplate
  by_cases hs : s = ""
  · simp [hs]
  · simp only [hs, if_false]
    have hid := renderCharsF_preserve (templateRepl data (bpDefault boilerplate))
      s.data.length s.data (fun b hb => templateRepl_verbatim (H b hb))
    rw [renderChars, hid]

/-- C5: a placeholder whose trimmed path starts with `boilerplate.` renders
through one callback invocation that (a) is independent of the data record —
it never falls through to `data`, even when `data.boilerplate` exists — and
(b) resolves against the boilerplate mapping with the prefix stripped; every
other placeholder path is independent of the boilerplate mapping (it
resolves against the data record). -/
theorem C5_boilerplate_precedence (path : String)
    (hne : path.data ≠ []) (hnb : ∀ c ∈ path.data, c ≠ '}') :
    (∀ data bp, renderTemplate (.str ("\x7b\x7b" ++ path ++ "\x7d\x7d")) data bp
        = .str (String.mk (templateRepl data (bpDefault bp) path.data)))
    ∧ (("boilerplate.".data).isPrefixOf (trimChars path.data) = true →
        (∀ d1 d2 bp, templateRepl d1 bp path.data = templateRepl d2 bp path.data)
        ∧ (∀ d bp, templateRepl d bp path.data
            = match getNestedValue bp (String.mk ((trimChars path.data).drop 12)) with
              | .undef => '{' :: '{' :: (path.data ++ ['}', '}'])
              | v => (jsToString v).data))
    ∧ (("boilerplate.".data).isPrefixOf (trimChars path.data) = false →
        ∀ d b1 b2, templateRepl d b1 path.data = templateRepl d b2 path.data) := by
  refine ⟨fun data bp => renderTemplate_single path data bp hne hnb, ?_, ?_⟩
  · intro hpre
    constructor
    · intro d1 d2 bp
      unfold templateRepl
      rw [if_pos hpre, if_pos hpre]
    · intro d bp
      unfold templateRepl
      rw [if_pos hpre]
  · intro hpre
    intro d b1 b2
    unfold templateRepl
    rw [if_neg (by rw [hpre]; exact Bool.false_ne_true),
        if_neg (by rw [hpre]; exact Bool.false_ne_true)]

/-- Witness for C5 at the spec's example: `{{boilerplate.blockA}}` resolves
to the library text even though the data record has its own `boilerplate`
key. -/
theorem C5_boilerplate_precedence_witness :
    ("boilerplate.blockA" : String).data ≠ []
    ∧ (∀ c ∈ ("boilerplate.blockA" : String).data, c ≠ '}')
    ∧ renderTemplate (.str "{{boilerplate.blockA}}")
        (.obj [("boilerplate", .obj [("blockA", .str "FROM DATA")])])
        (.obj [("blockA", .str "FROM LIB")])
      = .str "FROM LIB" := by
  have hne : ("boilerplate.blockA" : String).data ≠ [] := by simp
  have hnb : ∀ c ∈ ("boilerplate.blockA" : String).data, c ≠ '}' := by decide
  refine ⟨hne, hnb, ?_⟩
  have h := (C5_boilerplate_precedence "boilerplate.blockA" hne hnb).1
    (.obj [("boilerplate", .obj [("blockA", .str "FROM DATA")])])
    (.obj [("blockA", .str "FROM LIB")])
  rw [show ("\x7b\x7b" ++ "boilerplate.blockA" ++ "\x7d\x7d" : String) = "{{boilerplate.blockA}}" from rfl] at h
  rw [h]
  rfl

/-- A loop-mode table directive, as an input value for the claims about
table expansion. -/
def mkLoopTableItem (L : String) (tpls : List JsVal) : JsVal :=
  .obj [("type", .str "table"), ("loop", .str L), ("rows", .arr tpls)]

/-- C4: a loop-mode table directive over a data array of length `N` emits
exactly `N` body rows, row `j` rendering each configured cell template
against the `j`-th array element (not the top-level record); an absent or
non-array loop source emits `0` body rows without error (with no headers and
no rows, `createTable` returns the source's `null`, i.e. no table element). -/
theorem C4_table_loop_expansion (L : String) (hL : L ≠ "")
    (tpls : List JsVal) (u c : JsVal) :
    (∀ xs, getNestedValue u (cleanLoopPath L) = .arr xs →
        createTable (mkLoopTableItem L tpls) u c
          = .ok (if xs.isEmpty then none
                 else some (.table (xs.map (fun el =>
                   tpls.map (fun tpl =>
                     jsToString (renderTemplate tpl el (getField c "blocks"))))))))
    ∧ ((∀ xs, getNestedValue u (cleanLoopPath L) ≠ .arr xs) →
        createTable (mkLoopTableItem L tpls) u c = .ok none) := by
  constructor
  · intro xs hxs
    simp +decide [createTable, tableBranchRowsB, mkLoopTableItem, headerRowsB,
      getField, lookupField, jsTruthy, hL, hxs]
    cases xs with
    | nil => simp
    | cons a t => simp
  · intro hnone
    simp +decide [createTable, tableBranchRowsB, mkLoopTableItem, headerRowsB,
      getField, lookupField, jsTruthy, hL]

/-- Witness for C4: the two-element loop from the spec's example (and the
zero-rows case on a record without the source path). -/
theorem C4_table_loop_expansion_witness :
    ("{items}" : String) ≠ ""
    ∧ createTable
        (mkLoopTableItem "{items}" [.str "{{name}}", .str "{{qty}}"])
        (.obj [("items", .arr [.obj [("name", .str "Bolt"), ("qty", .num 4)],
                               .obj [("name", .str "Nut"), ("qty", .num 9)]])])
        (.obj [])
      = .ok (some (.table [["Bolt", "4"], ["Nut", "9"]]))
    ∧ createTable
        (mkLoopTableItem "{items}" [.str "{{name}}", .str "{{qty}}"])
        (.obj []) (.obj [])
      = .ok none := by
  have hL : ("{items}" : String) ≠ "" := by decide
  have h1 := (C4_table_loop_expansion "{items}" hL [.str "{{name}}", .str "{{qty}}"]
    (.obj [("items", .arr [.obj [("name", .str "Bolt"), ("qty", .num 4)],
                           .obj [("name", .str "Nut"), ("qty", .num 9)]])])
    (.obj [])).1
    [.obj [("name", .str "Bolt"), ("qty", .num 4)],
     .obj [("name", .str "Nut"), ("qty", .num 9)]] rfl
  have h2 := (C4_table_loop_expansion "{items}" hL [.str "{{name}}", .str "{{qty}}"]
    (.obj []) (.obj [])).2
    (by intro xs hxs; exact absurd hxs (by rw [show getNestedValue (.obj []) (cleanLoopPath "{items}") = .undef from rfl]; exact fun hcon => JsVal.noConfusion hcon))
  refine ⟨hL, ?_, h2⟩
  rw [h1]
  rfl

/-- Heading test for binary elements. -/
def isHeadingB : BinElem → Bool
  | .heading _ _ => true
  | _ => false

/-- Paragraph test for binary elements. -/
def isParaB : BinElem → Bool
  | .para _ => true
  | _ => false

/-- Table test for binary elements. -/
def isTableB : BinElem → Bool
  | .table _ => true
  | _ => false

/-- Heading test for preview elements. -/
def isHeadingH : HtmlElem → Bool
  | .hdg _ _ => true
  | _ => false

/-- Paragraph test for preview elements. -/
def isParaH : HtmlElem → Bool
  | .par _ => true
  | _ => false

/-- Table test for preview elements. -/
def isTableH : HtmlElem → Bool
  | .tab _ _ => true
  | _ => false

/-- The count relation between the two renderers' outputs: equal heading and
paragraph counts, and at most as many binary tables as preview tables. -/
def CountRel (bs : List BinElem) (hs : List HtmlElem) : Prop :=
  bs.countP isHeadingB = hs.countP isHeadingH
  ∧ bs.countP isParaB = hs.countP isParaH
  ∧ bs.countP isTableB ≤ hs.countP isTableH

theorem CountRel.nil : CountRel [] [] := by simp [CountRel]

theorem CountRel.append {b1 h1 b2 h2} (r1 : CountRel b1 h1) (r2 : CountRel b2 h2) :
    CountRel (b1 ++ b2) (h1 ++ h2) := by
  obtain ⟨a1, a2, a3⟩ := r1
  obtain ⟨c1, c2, c3⟩ := r2
  refine ⟨?_, ?_, ?_⟩
  · simp [List.countP_append, a1, c1]
  · simp [List.countP_append, a2, c2]
  · simp [List.countP_append]
    omega

theorem CountRel.cons {b : BinElem} {h : HtmlElem} {bs hs} (r1 : CountRel [b] [h])
    (r2 : CountRel bs hs) : CountRel (b :: bs) (h :: hs) :=
  CountRel.append r1 r2

theorem createTable_some_isTable {item u c : JsVal} {t : BinElem}
    (h : createTable item u c = .ok (some t)) : isTableB t = true := by
  unfold createTable at h
  cases hhr : headerRowsB item with
  | error e => rw [hhr] at h; exact absurd h (by simp)
  | ok hrows =>
      rw [hhr] at h
      cases hbr : tableBranchRowsB item u c with
      | error e => rw [hbr] at h; exact absurd h (by simp)
      | ok brows =>
          rw [hbr] at h
          simp at h
          rw [← h.2]
          rfl

theorem procItemStep_counts
    (rB : List JsVal → Except String (List BinElem))
    (rH : List JsVal → Except String (List HtmlElem))
    (hrec : ∀ subs bs hs, rB subs = .ok bs → rH subs = .ok hs → CountRel bs hs)
    (item r c : JsVal) (bs : List BinElem) (hs : List HtmlElem)
    (hb : procItemStepB rB item r c = .ok bs)
    (hh : procItemStepH rH item r c = .ok hs) :
    CountRel bs hs := by
  unfold procItemStepB at hb
  unfold procItemStepH at hh
  cases hty : getField item "type" with
  | str s =>
      rw [hty] at hb hh
      by_cases h1 : s = "paragraph"
      · subst h1
        simp at hb hh
        subst hb; subst hh
        simp [CountRel, isParaB, isParaH, isHeadingB, isHeadingH, isTableB, isTableH]
      · by_cases h2 : s = "table"
        · subst h2
          simp at hb hh
          revert hb
          cases hct : createTable item r c with
          | error e => simp
          | ok ot =>
              cases ot with
              | none =>
                  intro hb
                  simp at hb
                  subst hb
                  revert hh
                  cases hhc : headerCellsH item with
                  | error e => simp
                  | ok hdr =>
                      cases htb : tableBodyH item r c with
                      | error e => simp
                      | ok body =>
                          intro hh
                          simp at hh
                          subst hh
                          simp [CountRel, isParaB, isParaH, isHeadingB, isHeadingH,
                            isTableB, isTableH]
              | some t =>
                  intro hb
                  simp at hb
                  subst hb
                  revert hh
                  cases hhc : headerCellsH item with
                  | error e => simp
                  | ok hdr =>
                      cases htb : tableBodyH item r c with
                      | error e => simp
                      | ok body =>
                          intro hh
                          simp at hh
                          subst hh
                          have hT := createTable_some_isTable hct
                          simp [CountRel, isParaB, isParaH, isHeadingB, isHeadingH,
                            isTableB, isTableH, hT]
                          constructor
                          · cases t <;> simp_all [isHeadingB, isTableB]
                          · cases t <;> simp_all [isParaB, isTableB]
        · by_cases h3 : s = "conditional"
          · subst h3
            simp [h1, h2] at hb hh
            revert hb hh
            cases hce : evaluateCondition (getField item "condition") r with
            | none => simp
            | some b =>
                cases b with
                | false =>
                    intro hb hh
                    simp at hb hh
                    subst hb; subst hh
                    exact CountRel.nil
                | true =>
                    cases hcc : jsOr (getField item "content") (.arr []) with
                    | arr subs =>
                        intro hb hh
                        exact hrec subs bs hs hb hh
                    | undef => simp
                    | nullv => simp
                    | bool bb => simp
                    | num n => simp
                    | str s0 => simp
                    | obj fs => simp
                    | fn => simp
          · simp [h1, h2, h3] at hb hh
            subst hb; subst hh
            exact CountRel.nil
  | undef => rw [hty] at hb hh; simp at hb hh; subst hb; subst hh; exact CountRel.nil
  | nullv => rw [hty] at hb hh; simp at hb hh; subst hb; subst hh; exact CountRel.nil
  | bool b => rw [hty] at hb hh; simp at hb hh; subst hb; subst hh; exact CountRel.nil
  | num n => rw [hty] at hb hh; simp at hb hh; subst hb; subst hh; exact CountRel.nil
  | arr xs => rw [hty] at hb hh; simp at hb hh; subst hb; subst hh; exact CountRel.nil
  | obj fs => rw [hty] at hb hh; simp at hb hh; subst hb; subst hh; exact CountRel.nil
  | fn => rw [hty] at hb hh; simp at hb hh; subst hb; subst hh; exact CountRel.nil

theorem procItems_counts :
    ∀ (fuel : Nat) (items : List JsVal) (r c : JsVal) (bs : List BinElem) (hs : List HtmlElem),
      procItemsB fuel items r c = .ok bs →
      procItemsH fuel items r c = .ok hs →
      CountRel bs hs := by
  intro fuel
  induction fuel with
  | zero =>
      intro items r c bs hs hb hh
      cases items with
      | nil =>
          simp [procItemsB] at hb
          simp [procItemsH] at hh
          subst hb
          subst hh
          exact CountRel.nil
      | cons it t => simp [procItemsB] at hb
  | succ fuel ih =>
      intro items r c bs hs hb hh
      cases items with
      | nil =>
          simp [procItemsB] at hb
          simp [procItemsH] at hh
          subst hb
          subst hh
          exact CountRel.nil
      | cons item rest =>
          rw [procItemsB] at hb
          rw [procItemsH] at hh
          revert hb
          cases hstep : procItemStepB (fun subs => procItemsB fuel subs r c) item r c with
          | error e => simp
          | ok es =>
              cases hrest : procItemsB fuel rest r c with
              | error e => simp
              | ok es2 =>
                  intro hb
                  simp at hb
                  revert hh
                  cases hstepH : procItemStepH (fun subs => procItemsH fuel subs r c) item r c with
                  | error e => simp
                  | ok fs =>
                      cases hrestH : procItemsH fuel rest r c with
                      | error e => simp
                      | ok fs2 =>
                          intro hh
                          simp at hh
                          subst hb
                          subst hh
                          have hHead := procItemStep_counts _ _
                            (fun subs bs2 hs2 hb2 hh2 => ih subs r c bs2 hs2 hb2 hh2)
                            item r c es fs hstep hstepH
                          have hRest := ih rest r c es2 fs2 hrest hrestH
                          exact CountRel.append hHead hRest


theorem sectionItems_counts :
    ∀ (fuel : Nat) (items : List JsVal) (r c : JsVal) (bs : List BinElem) (hs : List HtmlElem),
      sectionItemsB fuel items r c = .ok bs →
      sectionItemsH fuel items r c = .ok hs →
      CountRel bs hs := by
  intro fuel
  induction fuel with
  | zero =>
      intro items r c bs hs hb hh
      cases items with
      | nil =>
          simp [sectionItemsB] at hb
          simp [sectionItemsH] at hh
          subst hb
          subst hh
          exact CountRel.nil
      | cons it t => simp [sectionItemsB] at hb
  | succ fuel ih =>
      intro items r c bs hs hb hh
      cases items with
      | nil =>
          simp [sectionItemsB] at hb
          simp [sectionItemsH] at hh
          subst hb
          subst hh
          exact CountRel.nil
      | cons item rest =>
          rw [sectionItemsB] at hb
          rw [sectionItemsH] at hh
          revert hb hh
          cases hsk : condSkip item r with
          | error e => simp
          | ok skip =>
              cases skip with
              | true =>
                  intro hb hh
                  exact ih rest r c bs hs hb hh
              | false =>
                  cases hstep : procItemStepB (fun subs => procItemsB fuel subs r c) item r c with
                  | error e => simp
                  | ok es =>
                      cases hrest : sectionItemsB fuel rest r c with
                      | error e => simp
                      | ok es2 =>
                          cases hstepH : procItemStepH (fun subs => procItemsH fuel subs r c) item r c with
                          | error e => simp
                          | ok fs =>
                              cases hrestH : sectionItemsH fuel rest r c with
                              | error e => simp
                              | ok fs2 =>
                                  intro hb hh
                                  simp at hb hh
                                  subst hb
                                  subst hh
                                  have hHead := procItemStep_counts _ _
                                    (fun subs bs2 hs2 hb2 hh2 =>
                                      procItems_counts fuel subs r c bs2 hs2 hb2 hh2)
                                    item r c es fs hstep hstepH
                                  have hRest := ih rest r c es2 fs2 hrest hrestH
                                  exact CountRel.append hHead hRest

theorem buildSection_counts (fuel : Nat) (sec r c : JsVal)
    (bs : List BinElem) (hs : List HtmlElem)
    (hb : buildSectionB fuel sec r c = .ok bs)
    (hh : buildSectionH fuel sec r c = .ok hs) :
    CountRel bs hs := by
  unfold buildSectionB at hb
  unfold buildSectionH at hh
  by_cases hhd : jsTruthy (getField sec "heading") = true
  all_goals by_cases hct : jsTruthy (getField sec "content") = true
  all_goals simp only [hhd, hct, if_true, if_false, Bool.false_eq_true] at hb hh
  · -- heading present, content truthy
    revert hb hh
    cases hcv : getField sec "content" with
    | arr items =>
        cases hsi : sectionItemsB fuel items r c with
        | error e => simp [hsi]
        | ok es =>
            cases hsiH : sectionItemsH fuel items r c with
            | error e => simp [hsi, hsiH]
            | ok fs =>
                simp only [hsi, hsiH]
                intro hb hh
                simp at hb hh
                subst hb
                subst hh
                refine CountRel.cons ?_ (sectionItems_counts fuel items r c es fs hsi hsiH)
                simp [CountRel, isHeadingB, isHeadingH, isParaB, isParaH, isTableB, isTableH]
    | undef => simp
    | nullv => simp
    | bool b => simp
    | num n => simp
    | str s0 => simp
    | obj fs => simp
    | fn => simp
  · -- heading present, content falsy
    simp at hb hh
    subst hb
    subst hh
    simp [CountRel, isHeadingB, isHeadingH, isParaB, isParaH, isTableB, isTableH]
  · -- no heading, content truthy
    revert hb hh
    cases hcv : getField sec "content" with
    | arr items =>
        cases hsi : sectionItemsB fuel items r c with
        | error e => simp [hsi]
        | ok es =>
            cases hsiH : sectionItemsH fuel items r c with
            | error e => simp [hsi, hsiH]
            | ok fs =>
                simp only [hsi, hsiH]
                intro hb hh
                simp at hb hh
                subst hb
                subst hh
                exact CountRel.append CountRel.nil
                  (sectionItems_counts fuel items r c es fs hsi hsiH)
    | undef => simp
    | nullv => simp
    | bool b => simp
    | num n => simp
    | str s0 => simp
    | obj fs => simp
    | fn => simp
  · -- no heading, content falsy
    simp at hb hh
    subst hb
    subst hh
    exact CountRel.nil

theorem buildSections_counts :
    ∀ (secs : List JsVal) (fuel : Nat) (r c : JsVal)
      (bsecs : List (List BinElem)) (hsecs : List (List HtmlElem)),
      buildSectionsB fuel secs r c = .ok bsecs →
      buildSectionsH fuel secs r c = .ok hsecs →
      List.Forall₂ CountRel bsecs hsecs := by
  intro secs
  induction secs with
  | nil =>
      intro fuel r c bsecs hsecs hb hh
      simp [buildSectionsB] at hb
      simp [buildSectionsH] at hh
      subst hb
      subst hh
      exact List.Forall₂.nil
  | cons sec rest ih =>
      intro fuel r c bsecs hsecs hb hh
      rw [buildSectionsB] at hb
      rw [buildSectionsH] at hh
      by_cases hskip : (jsStrictEq (getField sec "type") (.str "header")
          || jsStrictEq (getField sec "type") (.str "footer")) = true
      · rw [if_pos hskip] at hb hh
        exact ih fuel r c bsecs hsecs hb hh
      · rw [if_neg hskip] at hb hh
        revert hb hh
        cases hbs : buildSectionB fuel sec r c with
        | error e => simp [hbs]
        | ok children =>
            cases hbh : buildSectionH fuel sec r c with
            | error e => simp [hbs, hbh]
            | ok childrenH =>
                cases hrb : buildSectionsB fuel rest r c with
                | error e => simp [hbs, hbh, hrb]
                | ok out =>
                    cases hrh : buildSectionsH fuel rest r c with
                    | error e => simp [hbs, hbh, hrb, hrh]
                    | ok outH =>
                        simp only [hbs, hbh, hrb, hrh]
                        intro hb hh
                        simp at hb hh
                        subst hb
                        subst hh
                        exact List.Forall₂.cons
                          (buildSection_counts fuel sec r c _ _ hbs hbh)
                          (ih fuel r c out outH hrb hrh)

theorem forall2_counts_sum :
    ∀ {bsecs : List (List BinElem)} {hsecs : List (List HtmlElem)},
      List.Forall₂ CountRel bsecs hsecs →
      bsecs.length = hsecs.length
      ∧ (bsecs.map (List.countP isHeadingB)).sum = (hsecs.map (List.countP isHeadingH)).sum
      ∧ (bsecs.map (List.countP isParaB)).sum = (hsecs.map (List.countP isParaH)).sum
      ∧ (bsecs.map (List.countP isTableB)).sum ≤ (hsecs.map (List.countP isTableH)).sum := by
  intro bsecs hsecs h
  induction h with
  | nil => simp
  | cons hrel hrest ih =>
      obtain ⟨r1, r2, r3⟩ := hrel
      obtain ⟨i0, i1, i2, i3⟩ := ih
      refine ⟨by simp [i0], ?_, ?_, ?_⟩
      · simp [r1, i1]
      · simp [r2, i2]
      · simp
        omega

theorem htmlBody_reduce (fuel : Nat) {s : JsVal} (hs : jsTruthy s = true) (u c : JsVal) :
    htmlBody fuel s u c =
      match jsOr (getField s "sections") (.arr []) with
      | .arr secs => buildSectionsH fuel secs u c
      | _ => .error "TypeError: sections is not iterable" := by
  cases s with
  | undef => exact absurd hs (by simp [jsTruthy])
  | nullv => exact absurd hs (by simp [jsTruthy])
  | bool b => rfl
  | num n => rfl
  | str s0 => rfl
  | arr xs => rfl
  | obj fs => rfl
  | fn => rfl

mutual

/-- `true` iff a JSON value contains no `null` (or stored `undefined`)
anywhere: on such structure inputs every bare member access the source
performs on sections/items is safe, so the embedding (whose `getField`
returns `undefined` on nullish receivers, where JavaScript would throw)
coincides with the source. -/
def noNulls : JsVal → Bool
  | .undef => false
  | .nullv => false
  | .arr xs => noNullsList xs
  | .obj fs => noNullsFields fs
  | _ => true

/-- `noNulls` over array elements. -/
def noNullsList : List JsVal → Bool
  | [] => true
  | v :: t => noNulls v && noNullsList t

/-- `noNulls` over object fields. -/
def noNullsFields : List (String × JsVal) → Bool
  | [] => true
  | (_, v) :: t => noNulls v && noNullsFields t

end

/-- C2 counterexample: a loop-mode table item whose loop path does not
resolve to an array is omitted entirely by the binary renderer (zero
computed rows ⇒ `createTable` returns `null`), but the HTML preview still
emits a `<table>` element for it — so the table counts of the two render
targets differ (0 vs 1). -/
theorem C2_counterexample :
    generateFromStructure 5
      (.obj [("sections", .arr [.obj [("content", .arr [.obj
        [("type", .str "table"), ("loop", .str "items"),
         ("rows", .arr [.str "{{name}}"])]])]])])
      (.obj []) (.obj []) "2026-01-01" = .ok [[]]
    ∧ generateHtmlPreview 5
      (.obj [("sections", .arr [.obj [("content", .arr [.obj
        [("type", .str "table"), ("loop", .str "items"),
         ("rows", .arr [.str "{{name}}"])]])]])])
      (.obj []) (.obj []) = .preview [[HtmlElem.tab none []]]
    ∧ (([[]] : List (List BinElem)).map (List.countP isTableB)).sum = 0
    ∧ (([[HtmlElem.tab none []]] : List (List HtmlElem)).map (List.countP isTableH)).sum = 1 :=
  ⟨rfl, rfl, rfl, rfl⟩

/-- C2 amended: when the preview is evaluated against the same enhanced
record that the binary path constructs internally (`{...userData, today,
formatDate}` — as called in the code the preview gets the raw record, a
further divergence), and both runs succeed with at least one rendered
section (otherwise the binary path substitutes its `'Empty document'`
fallback section), the two render targets produce the same number of
top-level sections, headings and paragraphs, and every binary table has a
corresponding preview table but not conversely: the binary renderer emits
at most as many tables as the preview, dropping tables whose computed row
list is empty (and the preview's tables for boilerplate-source and
inline-static modes have empty bodies).  The structure is required to be
null-free (`noNulls`): on structures containing literal `null`s JavaScript
would throw on bare member accesses that the embedding reads as
`undefined`. -/
theorem C2_render_target_counts (fuel : Nat) (s u c : JsVal) (today : String)
    (bsecs : List (List BinElem)) (hsecs : List (List HtmlElem))
    (hnn : noNulls s = true)
    (hb : generateFromStructure fuel s u c today = .ok bsecs)
    (hh : generateHtmlPreview fuel s (enhance u today) c = .preview hsecs)
    (hne : hsecs ≠ []) :
    bsecs.length = hsecs.length
    ∧ (bsecs.map (List.countP isHeadingB)).sum = (hsecs.map (List.countP isHeadingH)).sum
    ∧ (bsecs.map (List.countP isParaB)).sum = (hsecs.map (List.countP isParaH)).sum
    ∧ (bsecs.map (List.countP isTableB)).sum ≤ (hsecs.map (List.countP isTableH)).sum := by
  unfold generateFromStructure at hb
  by_cases hguard : (!jsTruthy s || !jsTruthy (getField s "sections")) = true
  · rw [if_pos hguard] at hb
    exact absurd hb (by simp)
  · rw [if_neg hguard] at hb
    simp only [Bool.or_eq_true, Bool.not_eq_true'] at hguard
    push_neg at hguard
    obtain ⟨hs1, hs2⟩ := hguard
    rw [Bool.ne_false_iff] at hs1 hs2
    revert hb
    cases hsv : getField s "sections" with
    | arr secs =>
        cases hbt : buildSectionsB fuel secs (enhance u today) c with
        | error e => simp [hbt]
        | ok docSections =>
            simp only [hbt]
            intro hb
            simp at hb
            unfold generateHtmlPreview at hh
            rw [htmlBody_reduce fuel hs1 (enhance u today) c, hsv] at hh
            rw [show jsOr (JsVal.arr secs) (JsVal.arr []) = JsVal.arr secs from rfl] at hh
            revert hh
            cases hht : buildSectionsH fuel secs (enhance u today) c with
            | error e => simp [hht]
            | ok secs2 =>
                simp only [hht]
                intro hh
                simp at hh
                subst hh
                have hsum := forall2_counts_sum
                  (buildSections_counts secs fuel (enhance u today) c docSections secs2 hbt hht)
                cases hde : docSections with
                | nil =>
                    exfalso
                    rw [hde] at hsum
                    have h0 := hsum.1
                    simp at h0
                    exact hne (List.length_eq_zero.mp h0.symm)
                | cons d ds =>
                    rw [hde] at hb
                    simp at hb
                    rw [← hb]
                    rw [hde] at hsum
                    exact hsum
    | undef => intro hb; exact absurd hb (by simp)
    | nullv => intro hb; exact absurd hb (by simp)
    | bool b => intro hb; exact absurd hb (by simp)
    | num n => intro hb; exact absurd hb (by simp)
    | str s0 => intro hb; exact absurd hb (by simp)
    | obj fs => intro hb; exact absurd hb (by simp)
    | fn => intro hb; exact absurd hb (by simp)

/-- Witness for the amended C2 at a one-paragraph structure. -/
theorem C2_render_target_counts_witness :
    noNulls (JsVal.obj [("sections", .arr [.obj [("content", .arr [.obj
        [("type", .str "paragraph"), ("template", .str "Hi")]])]])]) = true
    ∧ generateFromStructure 4
        (.obj [("sections", .arr [.obj [("content", .arr [.obj
          [("type", .str "paragraph"), ("template", .str "Hi")]])]])])
        (.obj []) (.obj []) "2026-01-01" = .ok [[BinElem.para (.str "Hi")]]
    ∧ generateHtmlPreview 4
        (.obj [("sections", .arr [.obj [("content", .arr [.obj
          [("type", .str "paragraph"), ("template", .str "Hi")]])]])])
        (enhance (.obj []) "2026-01-01") (.obj []) = .preview [[HtmlElem.par "Hi"]]
    ∧ ([[HtmlElem.par "Hi"]] : List (List HtmlElem)) ≠ []
    ∧ ([[BinElem.para (JsVal.str "Hi")]] : List (List BinElem)).length
        = ([[HtmlElem.par "Hi"]] : List (List HtmlElem)).length := by
  have h1 : noNulls (JsVal.obj [("sections", .arr [.obj [("content", .arr [.obj
      [("type", .str "paragraph"), ("template", .str "Hi")]])]])]) = true := rfl
  have h2 : generateFromStructure 4
      (.obj [("sections", .arr [.obj [("content", .arr [.obj
        [("type", .str "paragraph"), ("template", .str "Hi")]])]])])
      (.obj []) (.obj []) "2026-01-01" = .ok [[BinElem.para (.str "Hi")]] := rfl
  have h3 : generateHtmlPreview 4
      (.obj [("sections", .arr [.obj [("content", .arr [.obj
        [("type", .str "paragraph"), ("template", .str "Hi")]])]])])
      (enhance (.obj []) "2026-01-01") (.obj []) = .preview [[HtmlElem.par "Hi"]] := rfl
  have h4 : ([[HtmlElem.par "Hi"]] : List (List HtmlElem)) ≠ [] :=
    fun hcon => List.noConfusion hcon
  exact ⟨h1, h2, h3, h4,
    (C2_render_target_counts 4 _ _ _ "2026-01-01" _ _ h1 h2 h3 h4).1⟩

/-- C7: evaluation of the code on the spec's end-to-end scenario.  The
heading renders as claimed (`"Report for Alpha"`), but the sole paragraph
renders as `"[object Object]"`, not `"Standard intro text."`: the content
library stores blocks as `{default, variants}` objects (that is the shape
this repository's own analysis service documents and produces), and
`renderTemplate` substitutes the resolved block *object* without selecting
its `default` variant, so `String.prototype.replace` coerces it to
`"[object Object]"`. -/
theorem C7_end_to_end_scenario_code_behavior :
    generateFromStructure 5
      (.obj [("sections", .arr [.obj [
        ("heading", .obj [("text", .str "Report for {{project}}")]),
        ("content", .arr [.obj [("type", .str "paragraph"),
                                ("template", .str "{{boilerplate.intro}}")]])]])])
      (.obj [("project", .str "Alpha")])
      (.obj [("blocks", .obj [("intro", .obj [("default", .str "Standard intro text.")])])])
      "2026-10-11"
    = .ok [[.heading (.num 1) (.str "Report for Alpha"),
            .para (.str "[object Object]")]] := rfl

/-- C8 counterexample: for a structure with no `sections` key, the binary
path raises the single explicit failure, but the HTML preview path does NOT
fail — it silently returns an empty preview; so the claimed hard failure
does not hold on both output paths. -/
theorem C8_counterexample :
    generateFromStructure 5 (.obj []) (.obj []) (.obj []) "2026-10-11"
      = .error "Invalid structure JSON"
    ∧ generateHtmlPreview 5 (.obj []) (.obj []) (.obj []) = .preview [] := ⟨rfl, rfl⟩

/-- C8 amended: for every structure input without a truthy `sections` key,
the binary document path surfaces the single explicit failure
`'Invalid structure JSON'`; the HTML preview path does not fail there — for
any non-nullish structure it renders an empty preview (its catch-all
failure string appears only when reading `.sections` itself throws, i.e.
for a `null`/`undefined` structure). -/
theorem C8_missing_sections_behavior (fuel : Nat) (s u c : JsVal) (today : String)
    (hs : jsTruthy s = true) (hsec : jsTruthy (getField s "sections") = false) :
    generateFromStructure fuel s u c today = .error "Invalid structure JSON"
    ∧ generateHtmlPreview fuel s u c = .preview [] := by
  constructor
  · unfold generateFromStructure
    rw [hs, hsec]
    rfl
  · match s with
    | .undef => exact absurd hs (by simp [jsTruthy])
    | .nullv => exact absurd hs (by simp [jsTruthy])
    | .bool b =>
        unfold generateHtmlPreview htmlBody
        simp +decide [jsOr, getField, jsTruthy, buildSectionsH]
    | .num n =>
        unfold generateHtmlPreview htmlBody
        simp +decide [jsOr, getField, jsTruthy, buildSectionsH]
    | .str s0 =>
        unfold generateHtmlPreview htmlBody
        simp +decide [jsOr, getField, jsTruthy, parseIndex, buildSectionsH]
    | .arr xs =>
        unfold generateHtmlPreview htmlBody
        simp +decide [jsOr, getField, jsTruthy, parseIndex, buildSectionsH]
    | .obj fs =>
        unfold generateHtmlPreview htmlBody
        simp +decide [jsOr, hsec, buildSectionsH]
    | .fn =>
        unfold generateHtmlPreview htmlBody
        simp +decide [jsOr, getField, jsTruthy, buildSectionsH]

/-- Witness for the amended C8 at a concrete sectionless structure. -/
theorem C8_missing_sections_behavior_witness :
    jsTruthy (.obj [("title", .str "t")]) = true
    ∧ jsTruthy (getField (.obj [("title", .str "t")]) "sections") = false
    ∧ generateFromStructure 3 (.obj [("title", .str "t")]) (.obj []) (.obj []) "2026-10-11"
        = .error "Invalid structure JSON"
    ∧ generateHtmlPreview 3 (.obj [("title", .str "t")]) (.obj []) (.obj []) = .preview [] := by
  have h := C8_missing_sections_behavior 3 (.obj [("title", .str "t")]) (.obj []) (.obj [])
    "2026-10-11" rfl rfl
  exact ⟨rfl, rfl, h.1, h.2⟩

/-- C9 counterexample: assembly is NOT a function of structure, data and
content alone — the injected `today` value (the wall clock read by
`getToday()`) flows into the output, so two calls with identical
structure/data/content made at different dates produce different trees. -/
theorem C9_counterexample :
    generateFromStructure 5
      (.obj [("sections", .arr [.obj [("content", .arr [.obj
        [("type", .str "paragraph"), ("template", .str "{{today}}")]])]])])
      (.obj []) (.obj []) "2024-01-01"
    ≠ generateFromStructure 5
      (.obj [("sections", .arr [.obj [("content", .arr [.obj
        [("type", .str "paragraph"), ("template", .str "{{today}}")]])]])])
      (.obj []) (.obj []) "2024-01-02" := by
  intro h
  rw [show generateFromStructure 5
      (.obj [("sections", .arr [.obj [("content", .arr [.obj
        [("type", .str "paragraph"), ("template", .str "{{today}}")]])]])])
      (.obj []) (.obj []) "2024-01-01"
      = .ok [[.para (.str "2024-01-01")]] from rfl] at h
  rw [show generateFromStructure 5
      (.obj [("sections", .arr [.obj [("content", .arr [.obj
        [("type", .str "paragraph"), ("template", .str "{{today}}")]])]])])
      (.obj []) (.obj []) "2024-01-02"
      = .ok [[.para (.str "2024-01-02")]] from rfl] at h
  have hx := congrArg (fun r => match r with
    | Except.ok [[BinElem.para (JsVal.str s)]] => s
    | _ => "") h
  simp at hx

/-- C9 amended: assembly is a deterministic function of structure, data,
content AND the generation date: with the clock value fixed, two runs on
identical inputs produce structurally identical trees (the model makes the
`getToday()` read an explicit parameter; there is no other hidden state). -/
theorem C9_deterministic_given_today (fuel : Nat) (s u c : JsVal) (d1 d2 : String)
    (h : d1 = d2) :
    generateFromStructure fuel s u c d1 = generateFromStructure fuel s u c d2 := by
  rw [h]

/-- Witness for the amended C9 at concrete inputs. -/
theorem C9_deterministic_given_today_witness :
    ("2024-01-01" : String) = "2024-01-01"
    ∧ generateFromStructure 3 (.obj [("sections", .arr [])]) (.obj []) (.obj []) "2024-01-01"
      = generateFromStructure 3 (.obj [("sections", .arr [])]) (.obj []) (.obj []) "2024-01-01" :=
  ⟨rfl, C9_deterministic_given_today 3 (.obj [("sections", .arr [])]) (.obj []) (.obj [])
    "2024-01-01" "2024-01-01" rfl⟩

/-- Field of the single-field schema used to state C10. -/
def mkField1 (id : String) (ty : JsVal) (label : String) : JsVal :=
  .obj [("id", .str id), ("type", ty), ("label", .str label), ("required", .bool true)]

/-- Single-section, single-field schema with a required field. -/
def mkSchema1 (id : String) (ty : JsVal) (label : String) : JsVal :=
  .obj [("sections", .arr [.obj [("fields", .arr [mkField1 id ty label])]])]

theorem fieldMsg_ne (l : String) {s1 s2 : String} (h12 : s1.data ≠ s2.data) :
    ("Field \"" ++ l ++ s1 : String) ≠ ("Field \"" ++ l ++ s2 : String) := by
  intro h
  apply h12
  have hd := congrArg String.data h
  simp only [String.data_append] at hd
  exact List.append_cancel_left hd

theorem requiredMsg_notin_typeErrors (id label : String) (ty dv : JsVal) :
    requiredMsg (.str label) ∉ fieldTypeErrors dv (mkField1 id ty label) := by
  intro hmem
  unfold fieldTypeErrors at hmem
  rw [show getField (mkField1 id ty label) "label" = .str label from rfl,
     show getField (mkField1 id ty label) "validation" = .undef from rfl,
     show getField (mkField1 id ty label) "type" = ty from rfl] at hmem
  cases ty with
  | str s =>
      by_cases h1 : s = "number"
      · subst h1
        simp [getField, requiredMsg, numberMsg, atLeastMsg, atMostMsg, jsToString,
          jsTruthy, jsLtB, jsGtB, jsToNum] at hmem
        rcases hmem with ⟨_, hmem⟩
        exact fieldMsg_ne label (by decide) hmem
      · by_cases h2 : s = "text"
        · subst h2
          cases dv
          all_goals simp [getField, requiredMsg, textMsg, jsToString, jsTruthy] at hmem
          all_goals exact fieldMsg_ne label (by decide) hmem
        · by_cases h3 : s = "textarea"
          · subst h3
            cases dv
            all_goals simp [getField, requiredMsg, textMsg, jsToString, jsTruthy] at hmem
            all_goals exact fieldMsg_ne label (by decide) hmem
          · by_cases h4 : s = "table"
            · subst h4
              cases dv
              all_goals simp [requiredMsg, tableMsg, jsToString] at hmem
              all_goals exact fieldMsg_ne label (by decide) hmem
            · simp [h1, h2, h3, h4] at hmem
  | undef => simp at hmem
  | nullv => simp at hmem
  | bool b => simp at hmem
  | num n => simp at hmem
  | arr xs => simp at hmem
  | obj fs => simp at hmem
  | fn => simp at hmem

/-- C10: for a required field, `validateUserData` reports the
required-field error exactly when the submitted value is falsy
(`field.required && !data[field.id]`); in particular a required number
field with value `0`, a required text field with value `""`, and a required
field with value `false` are all rejected as missing even though a value
was supplied. -/
theorem C10_required_rejects_falsy :
    (∀ (id label : String) (ty d : JsVal),
      validateUserData d (mkSchema1 id ty label)
        = .ok (fieldErrors d (mkField1 id ty label))
      ∧ (requiredMsg (.str label) ∈ fieldErrors d (mkField1 id ty label)
          ↔ jsTruthy (getField d id) = false))
    ∧ validateUserData (.obj [("n", .num 0)]) (mkSchema1 "n" (.str "number") "Count")
        = .ok [requiredMsg (.str "Count")]
    ∧ validateUserData (.obj [("t", .str "")]) (mkSchema1 "t" (.str "text") "Name")
        = .ok [requiredMsg (.str "Name")]
    ∧ validateUserData (.obj [("b", .bool false)]) (mkSchema1 "b" (.str "select") "Flag")
        = .ok [requiredMsg (.str "Flag")] := by
  refine ⟨?_, rfl, rfl, rfl⟩
  intro id label ty d
  constructor
  · simp +decide [validateUserData, mkSchema1, sectionsErrors, sectionFieldErrors,
      getField, lookupField, jsTruthy]
  · have hdv : getField d (jsToString (getField (mkField1 id ty label) "id"))
        = getField d id := rfl
    unfold fieldErrors
    rw [hdv,
       show getField (mkField1 id ty label) "required" = .bool true from rfl,
       show getField (mkField1 id ty label) "label" = .str label from rfl]
    cases hB : jsTruthy (getField d id) with
    | true =>
        constructor
        · intro hmem
          exfalso
          cases hget : getField d id with
          | undef => rw [hget] at hB; simp [jsTruthy] at hB
          | nullv => rw [hget] at hB; simp [jsTruthy] at hB
          | bool b =>
              rw [hget] at hB hmem
              simp [hB] at hmem
              exact requiredMsg_notin_typeErrors id label ty _ hmem
          | num n =>
              rw [hget] at hB hmem
              simp [hB] at hmem
              exact requiredMsg_notin_typeErrors id label ty _ hmem
          | str s0 =>
              rw [hget] at hB hmem
              simp [hB] at hmem
              exact requiredMsg_notin_typeErrors id label ty _ hmem
          | arr xs =>
              rw [hget] at hB hmem
              simp [hB] at hmem
              exact requiredMsg_notin_typeErrors id label ty _ hmem
          | obj fs =>
              rw [hget] at hB hmem
              simp [hB] at hmem
              exact requiredMsg_notin_typeErrors id label ty _ hmem
          | fn =>
              rw [hget] at hB hmem
              simp [hB] at hmem
              exact requiredMsg_notin_typeErrors id label ty _ hmem
        · intro hcon
          exact absurd hcon (by decide)
    | false =>
        constructor
        · intro _
          rfl
        · intro _
          simp [hB]
          exact Or.inl rfl

/-- C1 counterexample: the two call sites do NOT agree on every operator in
the claimed set.  For `greater_than` on a missing field, the server
evaluator returns `false` (`undefined > 0`), while the form evaluator's
`switch` lacks that case and falls through to `true`. -/
theorem C1_counterexample :
    evaluateCondition
        (.obj [("field", .str "x"), ("operator", .str "greater_than"), ("value", .num 0)])
        (.obj []) = some false
    ∧ evaluateConditional
        (.obj [("show_when",
          .obj [("field", .str "x"), ("operator", .str "greater_than"), ("value", .num 0)])])
        (.obj []) = true := ⟨rfl, rfl⟩

/-- C1 amended: the server condition evaluator and the form-visibility
evaluator agree for `equals`, `not_equals` and unknown operators, on
conditions whose field is a nonempty dot-free string; the form evaluator
does not implement `greater_than`, `less_than` or `not_contains` (it
returns `true` for them), and its `contains` stringifies falsy field values
as `''` where the server uses `String(...)`. -/
theorem C1_agreement_on_shared_operators (f : String) (op v d : JsVal)
    (hf : f ≠ "") (hflat : splitDot f.data [] = [f.data])
    (hop : op = .str "equals" ∨ op = .str "not_equals" ∨
        (∀ s : String, op = .str s →
          s ≠ "equals" ∧ s ≠ "not_equals" ∧ s ≠ "greater_than" ∧ s ≠ "less_than"
          ∧ s ≠ "contains" ∧ s ≠ "not_contains")) :
    evaluateCondition (.obj [("field", .str f), ("operator", op), ("value", v)]) d
      = some (evaluateConditional
          (.obj [("show_when",
            .obj [("field", .str f), ("operator", op), ("value", v)])]) d) := by
  have hres : getNestedValue d f = getField d f := by
    unfold getNestedValue
    rw [if_neg hf, hflat]
    rfl
  rcases hop with hop | hop | hop
  · subst hop
    simp +decide [evaluateCondition, evaluateConditional, getField, lookupField,
      jsTruthy, hf, hres, condSwitch, jsToString]
  · subst hop
    simp +decide [evaluateCondition, evaluateConditional, getField, lookupField,
      jsTruthy, hf, hres, condSwitch, jsToString]
  · cases op with
    | str s =>
        obtain ⟨h1, h2, h3, h4, h5, h6⟩ := hop s rfl
        simp +decide [evaluateCondition, evaluateConditional, getField, lookupField,
          jsTruthy, hf, hres, condSwitch, jsToString, h1, h2, h3, h4, h5, h6]
    | undef =>
        simp +decide [evaluateCondition, evaluateConditional, getField, lookupField,
          jsTruthy, hf, hres, condSwitch, jsToString]
    | nullv =>
        simp +decide [evaluateCondition, evaluateConditional, getField, lookupField,
          jsTruthy, hf, hres, condSwitch, jsToString]
    | bool b =>
        simp +decide [evaluateCondition, evaluateConditional, getField, lookupField,
          jsTruthy, hf, hres, condSwitch, jsToString]
    | num n =>
        simp +decide [evaluateCondition, evaluateConditional, getField, lookupField,
          jsTruthy, hf, hres, condSwitch, jsToString]
    | arr xs =>
        simp +decide [evaluateCondition, evaluateConditional, getField, lookupField,
          jsTruthy, hf, hres, condSwitch, jsToString]
    | obj fs =>
        simp +decide [evaluateCondition, evaluateConditional, getField, lookupField,
          jsTruthy, hf, hres, condSwitch, jsToString]
    | fn =>
        simp +decide [evaluateCondition, evaluateConditional, getField, lookupField,
          jsTruthy, hf, hres, condSwitch, jsToString]

/-- Witness for the amended C1: `equals` agrees at a concrete condition and
record. -/
theorem C1_agreement_on_shared_operators_witness :
    ("x" : String) ≠ ""
    ∧ splitDot ("x" : String).data [] = [("x" : String).data]
    ∧ evaluateCondition
        (.obj [("field", .str "x"), ("operator", .str "equals"), ("value", .num 1)])
        (.obj [("x", .num 1)])
      = some (evaluateConditional
          (.obj [("show_when",
            .obj [("field", .str "x"), ("operator", .str "equals"), ("value", .num 1)])])
          (.obj [("x", .num 1)])) := by
  have hf : ("x" : String) ≠ "" := by decide
  have hflat : splitDot ("x" : String).data [] = [("x" : String).data] := rfl
  exact ⟨hf, hflat,
    C1_agreement_on_shared_operators "x" (.str "equals") (.num 1) (.obj [("x", .num 1)])
      hf hflat (Or.inl rfl)⟩

/-- C6 counterexample: the claim says a condition whose field path does not
resolve is treated as *not satisfied* (false) for every supported operator;
but for `not_equals` (a supported operator) a missing field yields
`undefined !== value`, i.e. `true` — the condition IS satisfied. -/
theorem C6_counterexample :
    evaluateCondition
        (.obj [("field", .str "x"), ("operator", .str "not_equals"), ("value", .str "yes")])
        (.obj []) = some true
    ∧ getNestedValue (.obj []) "x" = .undef := ⟨rfl, rfl⟩

/-- C6 amended: a conditional clause whose field path does not resolve never
raises a fatal error (every operator yields `some` boolean), and the
operators `equals` (against a defined comparison value), `greater_than` and
`less_than` indeed yield false; but `not_equals` yields true, and
`contains` / `not_contains` compare against the string `"undefined"`
(the `String(...)` coercion of the missing value). -/
theorem C6_missing_field_fail_open (f : String) (v d : JsVal)
    (hf : f ≠ "") (hres : getNestedValue d f = .undef) :
    (∀ op : JsVal, ∃ b, evaluateCondition
        (.obj [("field", .str f), ("operator", op), ("value", v)]) d = some b)
    ∧ (v ≠ .undef → evaluateCondition
        (.obj [("field", .str f), ("operator", .str "equals"), ("value", v)]) d = some false)
    ∧ (v ≠ .undef → evaluateCondition
        (.obj [("field", .str f), ("operator", .str "not_equals"), ("value", v)]) d = some true)
    ∧ evaluateCondition
        (.obj [("field", .str f), ("operator", .str "greater_than"), ("value", v)]) d = some false
    ∧ evaluateCondition
        (.obj [("field", .str f), ("operator", .str "less_than"), ("value", v)]) d = some false
    ∧ evaluateCondition
        (.obj [("field", .str f), ("operator", .str "contains"), ("value", v)]) d
        = some (strIncludes "undefined" v)
    ∧ evaluateCondition
        (.obj [("field", .str f), ("operator", .str "not_contains"), ("value", v)]) d
        = some (!strIncludes "undefined" v) := by
  refine ⟨?_, ?_, ?_, ?_, ?_, ?_, ?_⟩
  · intro op
    refine ⟨condSwitch op .undef v, ?_⟩
    simp +decide [evaluateCondition, getField, lookupField, jsTruthy, hf, hres]
  · intro hv
    simp +decide [evaluateCondition, getField, lookupField, jsTruthy, hf, hres, condSwitch]
    cases v <;> simp_all [jsStrictEq]
  · intro hv
    simp +decide [evaluateCondition, getField, lookupField, jsTruthy, hf, hres, condSwitch]
    cases v <;> simp_all [jsStrictEq]
  · simp +decide [evaluateCondition, getField, lookupField, jsTruthy, hf, hres, condSwitch,
      jsGtB, jsLtB, jsToNum]
  · simp +decide [evaluateCondition, getField, lookupField, jsTruthy, hf, hres, condSwitch,
      jsGtB, jsLtB, jsToNum]
  · simp +decide [evaluateCondition, getField, lookupField, jsTruthy, hf, hres, condSwitch,
      jsToString]
  · simp +decide [evaluateCondition, getField, lookupField, jsTruthy, hf, hres, condSwitch,
      jsToString]

/-- Witness for the amended C6 at a concrete missing field. -/
theorem C6_missing_field_fail_open_witness :
    ("flag" : String) ≠ ""
    ∧ getNestedValue (.obj [("other", .num 1)]) "flag" = .undef
    ∧ evaluateCondition
        (.obj [("field", .str "flag"), ("operator", .str "greater_than"), ("value", .num 0)])
        (.obj [("other", .num 1)]) = some false := by
  have hf : ("flag" : String) ≠ "" := by decide
  have hres : getNestedValue (.obj [("other", .num 1)]) "flag" = .undef := rfl
  exact ⟨hf, hres,
    (C6_missing_field_fail_open "flag" (.num 0) (.obj [("other", .num 1)]) hf hres).2.2.2.1⟩

/-- Witness for C3: the spec's example `"Hello {{missing.path}}"` against a
record without `missing.path`. -/
theorem C3_unresolved_placeholders_preserved_witness :
    (∀ b ∈ placeholderBodies "Hello {{missing.path}}",
        resolvesUndef (.obj [("project", .str "Alpha")]) (bpDefault (.obj [])) b) ∧
    renderTemplate (.str "Hello {{missing.path}}")
        (.obj [("project", .str "Alpha")]) (.obj [])
      = .str "Hello {{missing.path}}" := by
  have h : ∀ b ∈ placeholderBodies "Hello {{missing.path}}",
      resolvesUndef (.obj [("project", .str "Alpha")]) (bpDefault (.obj [])) b := by
    intro b hb
    rw [show placeholderBodies "Hello {{missing.path}}" = ["missing.path".data] from rfl] at hb
    rw [List.mem_singleton] at hb
    subst hb
    exact rfl
  exact ⟨h, C3_unresolved_placeholders_preserved _ _ _ h⟩

end DocGen
